import Mathlib

/-!
Shallow embedding of the xkcd-bot backend (src/backend/scraper.py and
src/backend/xkcd_api.py).

External effects (HTTP responses from xkcd.com and explainxkcd.com, the
MongoDB collection, and the parsed HTML tree produced by BeautifulSoup) are
modelled as explicit inputs: an HTTP response is a status code plus payload,
the collection is an association list keyed by comic number with Mongo's
update-one/upsert semantics, and the piece of the parsed HTML page that
`get_transcript_for_comic` inspects is the list of sibling nodes following
the enclosing `h2` of the `id="Transcript"` anchor.
-/

set_option autoImplicit false

namespace XkcdBot

/-- ASCII whitespace, as stripped by Python's `str.strip`. -/
def isSpaceChar (c : Char) : Bool := c == ' ' || c == '\t' || c == '\n' || c == '\r'

/-- Strip leading and trailing whitespace from a character list. -/
def stripChars (l : List Char) : List Char :=
  ((l.dropWhile isSpaceChar).reverse.dropWhile isSpaceChar).reverse

/-- Model of Python `str.strip()`. -/
def pyStrip (s : String) : String := ⟨stripChars s.toList⟩

/-- Value of a run of decimal digit characters. -/
def digitsVal (l : List Char) : Nat :=
  l.foldl (fun acc c => acc * 10 + (c.toNat - 48)) 0

/-- Model of Python `int(s)` applied to a string: surrounding whitespace is
ignored, an optional single sign is allowed, and the remainder must be a
non-empty run of decimal digits; anything else raises `ValueError`,
modelled as `none`. -/
def pyParseInt (s : String) : Option Int :=
  match stripChars s.toList with
  | [] => none
  | c :: cs =>
    let (sign, digits) :=
      if c = '-' then ((-1 : Int), cs)
      else if c = '+' then ((1 : Int), cs)
      else ((1 : Int), c :: cs)
    if digits.isEmpty then none
    else if digits.all Char.isDigit then some (sign * (digitsVal digits : Int))
    else none

/-- Raw JSON payload of `GET https://xkcd.com/{num}/info.0.json` as far as the
scraper reads it: `num`, the verbatim string fields, and the three date
fields, each either present with a string value or absent from the JSON
object (`none`). -/
structure RawComic where
  num : Nat
  title : String
  img : String
  alt : String
  year : Option String
  month : Option String
  day : Option String
deriving DecidableEq

/-- A comic record as stored in the collection: the normalized document
produced by `fetch_comic`, plus the `transcript` field which is absent
(`none`) until one is attached. -/
structure Comic where
  num : Nat
  title : String
  img : String
  alt : String
  year : Option Int
  month : Option Int
  day : Option Int
  transcript : Option String
deriving DecidableEq

/-- The date-field normalization done by `fetch_comic`:
`data[key] = int(data.get(key, '0'))` with `ValueError` mapped to `None`.
A missing key makes `data.get` return the default string `'0'`. -/
def normalizeDateField (v : Option String) : Option Int :=
  pyParseInt (v.getD "0")

/-- `fetch_comic` after the HTTP GET has produced a response: a non-200
status yields `None`; on 200 the three date fields are each normalized with
`normalizeDateField` and all other fields are passed through verbatim. The
returned document has no `transcript` key. -/
def fetch_comic (status : Nat) (data : RawComic) : Option Comic :=
  if status ≠ 200 then none
  else some
    { num := data.num
      title := data.title
      img := data.img
      alt := data.alt
      year := normalizeDateField data.year
      month := normalizeDateField data.month
      day := normalizeDateField data.day
      transcript := none }

/-- One sibling node of the `h2` enclosing the `id="Transcript"` anchor, as
far as `get_transcript_for_comic` inspects it: the node's `class` attribute
(`[]` when absent), the `class` attributes of its immediate tag children
(`element.find_all(recursive=False)`), its stripped text content
(`element.get_text(separator="", strip=True)`), and its serialized markup
(`str(element)`). -/
structure SibNode where
  classes : List String
  childClasses : List (List String)
  text : String
  html : String
deriving DecidableEq

/-- The nested `is_headline` predicate: the node, or one of its immediate
children, has a `class` attribute containing `"mw-headline"`. -/
def is_headline (e : SibNode) : Bool :=
  e.classes.contains "mw-headline"
    || e.childClasses.any (fun cs => cs.contains "mw-headline")

/-- The sibling walk of `get_transcript_for_comic`: walk the siblings in
order, stop at the first node satisfying `is_headline`, and accumulate the
serialized markup of every visited node whose stripped text is non-empty. -/
def collectTranscript : List SibNode → String
  | [] => ""
  | e :: rest =>
    if is_headline e then ""
    else (if e.text = "" then "" else e.html) ++ collectTranscript rest

/-- Shape of the parsed explainxkcd page as far as the extraction walk is
concerned: no `id="Transcript"` anchor, an anchor without an enclosing
`h2`, or an anchor whose enclosing `h2` is followed by the given siblings. -/
inductive PageShape where
  | noAnchor : PageShape
  | anchorNoHeading : PageShape
  | anchorWithHeading : List SibNode → PageShape
deriving DecidableEq

/-- Outcome of the secondary-source HTTP GET inside
`get_transcript_for_comic`: either the request (or anything downstream of
it) raises, or it returns a status code together with the parsed page
(`none` when parsing itself raises). -/
inductive AnnotFetch where
  | transportError : AnnotFetch
  | httpResponse : Nat → Option PageShape → AnnotFetch
deriving DecidableEq

/-- `get_transcript_for_comic` as a function of the secondary-source
response: every failure path (exception, non-200 status, parse failure,
missing anchor, missing enclosing heading) yields `""`; on success the
sibling walk runs and the accumulated markup is stripped. -/
def get_transcript_for_comic : AnnotFetch → String
  | .transportError => ""
  | .httpResponse status parsed =>
    if status ≠ 200 then ""
    else
      match parsed with
      | none => ""
      | some .noAnchor => ""
      | some .anchorNoHeading => ""
      | some (.anchorWithHeading sibs) => pyStrip (collectTranscript sibs)

/-- The spec's wording of the sibling walk, for comparison with
`collectTranscript`: the trimmed concatenation of the serialized markup of
every sibling before the first boundary node, with no condition on the
node's text content. -/
def specCollectAllPreBoundary (sibs : List SibNode) : String :=
  pyStrip (String.join ((sibs.takeWhile (fun e => !is_headline e)).map SibNode.html))

/-- The MongoDB collection, modelled as an association list from comic
number to record, in insertion order. Normal operation keeps the keys
unique (every write is keyed by `num`). -/
abbrev Store := List (Nat × Comic)

/-- `collection.find_one({"num": num})` viewed as a Boolean: does the store
hold a document with this `num`? -/
def holdsNum (s : Store) (n : Nat) : Bool := s.any (fun p => p.1 == n)

/-- `collection.find_one({"num": num})`: the first stored document with the
given `num`. -/
def lookupStore : Store → Nat → Option Comic
  | [], _ => none
  | p :: rest, n => if p.1 == n then some p.2 else lookupStore rest n

/-- Mongo `update_one({num}, {$set: doc}, upsert=True)` where `doc` carries
every modelled field: replace the first document keyed `n`, or append a new
one when none exists. -/
def upsertDoc : Store → Nat → Comic → Store
  | [], n, c => [(n, c)]
  | p :: rest, n, c => if p.1 == n then (n, c) :: rest else p :: upsertDoc rest n c

/-- `save_comic`: upsert the document under its own `num`. -/
def save_comic (s : Store) (c : Comic) : Store := upsertDoc s c.num c

/-- `get_highest_stored_comic_number`: the largest stored `num`
(`find_one` sorted by `num` descending), or `0` for an empty store. -/
def get_highest_stored_comic_number (s : Store) : Nat :=
  s.foldl (fun m p => max m p.1) 0

/-- `get_all_stored_comic_numbers`: the `num` of every stored document. -/
def get_all_stored_comic_numbers (s : Store) : List Nat :=
  s.map Prod.fst

/-- Does this record lack a transcript, in the sense of the Mongo query
`{"transcript": {"$in": [None, ""]}}` (field absent, null, or `""`)? -/
def lacksTranscript (c : Comic) : Bool :=
  match c.transcript with
  | none => true
  | some t => t == ""

/-- `get_all_comics_without_transcript`: numbers of the stored documents
whose `transcript` is absent, null or empty. -/
def get_all_comics_without_transcript (s : Store) : List Nat :=
  (s.filter (fun p => lacksTranscript p.2)).map Prod.fst

/-- `add_transcript_to_comic`: `update_one({num}, {$set: {transcript}})`
without upsert — set `transcript` on the first document keyed `n`, a no-op
when no such document exists. -/
def add_transcript_to_comic : Store → Nat → String → Store
  | [], _, _ => []
  | p :: rest, n, t =>
    if p.1 == n then (p.1, { p.2 with transcript := some t }) :: rest
    else p :: add_transcript_to_comic rest n t

/-- Per-item outcome printed by `add_transcripts`. -/
inductive BackfillReport where
  | added : Nat → BackfillReport
  | noTranscript : Nat → BackfillReport
deriving DecidableEq

/-- The loop body of `add_transcripts`: for each target number fetch the
transcript (`tr` is `get_transcript_for_comic` as a function of the
number); a non-empty (truthy) result is written with
`add_transcript_to_comic`, an empty result leaves the store alone and is
reported as "No transcript found". -/
def add_transcripts_go (tr : Nat → String) : Store → List Nat → Store × List BackfillReport
  | s, [] => (s, [])
  | s, n :: rest =>
    let t := tr n
    if t = "" then
      let out := add_transcripts_go tr s rest
      (out.1, .noTranscript n :: out.2)
    else
      let out := add_transcripts_go tr (add_transcript_to_comic s n t) rest
      (out.1, .added n :: out.2)

/-- Target-set computation of `add_transcripts`: an explicit list is used
as-is; otherwise all stored numbers (replace mode) or all numbers lacking a
transcript (default), narrowed by the optional `start`/`end` bounds. -/
def backfill_targets (s : Store) (rep : Bool) (comics : Option (List Nat))
    (start? end? : Option Nat) : List Nat :=
  match comics with
  | some cs => cs
  | none =>
    let base := if !rep then get_all_comics_without_transcript s
                else get_all_stored_comic_numbers s
    let base := match start? with
                | some a => base.filter (fun n => decide (a ≤ n))
                | none => base
    match end? with
    | some b => base.filter (fun n => decide (n ≤ b))
    | none => base

/-- `add_transcripts`: compute the targets, then run the backfill loop. -/
def add_transcripts (tr : Nat → String) (rep : Bool) (comics : Option (List Nat))
    (start? end? : Option Nat) (s : Store) : Store × List BackfillReport :=
  add_transcripts_go tr s (backfill_targets s rep comics start? end?)

/-- Outcome of the primary-source request that `fetch_comic num` performs,
as seen from the `download_comics` loop: either `requests.get` (or JSON
decoding) raises, or a response with a status code and payload arrives. -/
inductive FetchOutcome where
  | raised : FetchOutcome
  | response : Nat → RawComic → FetchOutcome

/-- One iteration of the `download_comics` loop at number `n`, returning
the new store and whether a primary fetch was performed. With
`replace = false` (skip-existing mode) a number already held is skipped
before any fetch. A raised fetch or a `None` result (non-200) leaves the
store unchanged; on success the transcript fetched for `n` is attached and
the document saved. -/
def download_step (env : Nat → FetchOutcome) (tr : Nat → String) (rep : Bool)
    (s : Store) (n : Nat) : Store × Bool :=
  if !rep && holdsNum s n then (s, false)
  else
    match env n with
    | .raised => (s, true)
    | .response status data =>
      match fetch_comic status data with
      | none => (s, true)
      | some c => (save_comic s { c with transcript := some (tr n) }, true)

/-- The `download_comics` loop over a list of numbers, returning the final
store and the list of numbers for which a primary fetch was performed. -/
def download_go (env : Nat → FetchOutcome) (tr : Nat → String) (rep : Bool) :
    Store → List Nat → Store × List Nat
  | s, [] => (s, [])
  | s, n :: rest =>
    let step := download_step env tr rep s n
    let out := download_go env tr rep step.1 rest
    (out.1, (if step.2 then [n] else []) ++ out.2)

/-- Python `range(start, end + 1)`: the ascending numbers from `start` to
`endv` inclusive, empty when `start > endv`. -/
def pyRange (start endv : Nat) : List Nat := List.range' start (endv + 1 - start)

/-- Resolution of the loop's start bound: the explicit value, or one past
the highest stored number. -/
def resolve_start (start? : Option Nat) (s : Store) : Nat :=
  match start? with
  | some v => v
  | none => get_highest_stored_comic_number s + 1

/-- Resolution of the loop's end bound: the explicit value, or the latest
number reported by the primary source (`get_latest_comic_number`). -/
def resolve_end (end? : Option Nat) (latest : Nat) : Nat :=
  match end? with
  | some v => v
  | none => latest

/-- `download_comics`: resolve the bounds, then run the loop over the
inclusive range. `latest` is the number the primary source's latest
endpoint would report; `env` and `tr` are the primary fetch and the
transcript fetch as functions of the comic number. -/
def download_comics (env : Nat → FetchOutcome) (tr : Nat → String)
    (start? end? : Option Nat) (rep : Bool) (latest : Nat) (s : Store) :
    Store × List Nat :=
  download_go env tr rep s (pyRange (resolve_start start? s) (resolve_end end? latest))

/-- The document that number `n`'s primary fetch normalizes to, if any:
`none` when the request raises or the response has a non-200 status. -/
def envComic (env : Nat → FetchOutcome) (n : Nat) : Option Comic :=
  match env n with
  | .raised => none
  | .response st d => fetch_comic st d

/-- The key specification of one Mongo index: `(field, type)` pairs, the
`"key"` entry of `index_information()`. A text index has type `"text"` on
some field. -/
abbrev IndexKey := List (String × String)

/-- `TEXT_INDEX_WEIGHTS = {"title": 5, "alt": 2, "transcript": 1}`. -/
def TEXT_INDEX_WEIGHTS : List (String × Nat) :=
  [("title", 5), ("alt", 2), ("transcript", 1)]

/-- The scan at the top of `_ensure_text_index`: the name of the first
index (in `index_information()` order) whose key contains a `"text"`
entry. -/
def find_existing_text_index : List (String × IndexKey) → Option String
  | [] => none
  | (name, key) :: rest =>
    if key.any (fun kt => kt.2 == "text") then some name
    else find_existing_text_index rest

/-- An action `_ensure_text_index` performs on the collection. -/
inductive IndexAction where
  | dropIdx : String → IndexAction
  | createIdx : String → List String → List (String × Nat) → IndexAction
deriving DecidableEq

/-- `_ensure_text_index` as the list of index operations it performs, given
the overwrite flag, the configured index name and the existing indexes: if
some text index exists it is either dropped and recreated (overwrite
authorized) or left alone; if none exists the weighted index is created. -/
def ensure_text_index (overwrite : Bool) (idxName : String)
    (indexes : List (String × IndexKey)) : List IndexAction :=
  match find_existing_text_index indexes with
  | some existing =>
    if overwrite then
      [.dropIdx existing,
       .createIdx idxName ["title", "alt", "transcript"] TEXT_INDEX_WEIGHTS]
    else []
  | none =>
    [.createIdx idxName ["title", "alt", "transcript"] TEXT_INDEX_WEIGHTS]

/-- The spec's wording of the index lifecycle, for comparison with
`ensure_text_index`: an index under the expected name is always left
untouched; an index under a different name is dropped and recreated only
when overwrite is authorized. -/
def specEnsureTextIndex (overwrite : Bool) (idxName : String)
    (indexes : List (String × IndexKey)) : List IndexAction :=
  match find_existing_text_index indexes with
  | some existing =>
    if existing == idxName then []
    else if overwrite then
      [.dropIdx existing,
       .createIdx idxName ["title", "alt", "transcript"] TEXT_INDEX_WEIGHTS]
    else []
  | none =>
    [.createIdx idxName ["title", "alt", "transcript"] TEXT_INDEX_WEIGHTS]

/-- Split a character list into maximal space-free words. -/
def splitWords (l : List Char) : List (List Char) :=
  l.foldr (fun c acc =>
    if c = ' ' then [] :: acc
    else
      match acc with
      | [] => [[c]]
      | w :: ws => (c :: w) :: ws) []

/-- Tokenize a string into its whitespace-separated words. -/
def wordsOf (s : String) : List String :=
  ((splitWords s.toList).filter (fun w => !w.isEmpty)).map (fun w => ⟨w⟩)

/-- Relevance weight of an indexed field, from `TEXT_INDEX_WEIGHTS`. -/
def weightOf (field : String) : Nat :=
  match TEXT_INDEX_WEIGHTS.lookup field with
  | some w => w
  | none => 0

/-- Modelled from the spec: MongoDB's `$text` relevance score, which is not
part of this repository. Per the spec it is weighted disjunctive term
matching over `title`, `alt` and `transcript`: each search term scores the
number of its word matches in a field times that field's weight from
`TEXT_INDEX_WEIGHTS`, summed over terms and fields; a document matches the
query iff its score is positive. -/
def textScore (searchString : String) (c : Comic) : Nat :=
  ((wordsOf searchString).map (fun term =>
    weightOf "title" * (wordsOf c.title).count term
      + weightOf "alt" * (wordsOf c.alt).count term
      + weightOf "transcript" * (wordsOf (c.transcript.getD "")).count term)).sum

/-- Insert a comic into a list that is sorted by descending `textScore`,
keeping it sorted. -/
def insertRanked (searchString : String) (c : Comic) : List Comic → List Comic
  | [] => [c]
  | d :: rest =>
    if textScore searchString d < textScore searchString c then c :: d :: rest
    else d :: insertRanked searchString c rest

/-- Sort comics by descending `textScore`, modelling the
`sort([("score", {"$meta": "textScore"})])` cursor (Mongo sorts a
`textScore` meta key descending). -/
def rankByScore (searchString : String) : List Comic → List Comic
  | [] => []
  | c :: rest => insertRanked searchString c (rankByScore searchString rest)

/-- `search_comics`: FastAPI validation rejects an empty `q` list
(`min_length=1`) and a `limit` outside `1..100` (`ge=1`, `le=100`),
modelled as `none`. Otherwise the terms are joined with spaces into one
search string, the matching documents are ranked by descending relevance
score, and the first `limit` results are returned. -/
def search_comics (q : List String) (limit : Nat) (s : Store) : Option (List Comic) :=
  if q.isEmpty then none
  else if limit < 1 || 100 < limit then none
  else
    let searchString := String.intercalate " " q
    let matching := (s.map Prod.snd).filter (fun c => textScore searchString c != 0)
    some ((rankByScore searchString matching).take limit)

/-- All fields of a record except `transcript`. -/
def comicFrame (c : Comic) :
    Nat × String × String × String × Option Int × Option Int × Option Int :=
  (c.num, c.title, c.img, c.alt, c.year, c.month, c.day)

theorem add_transcript_keys (s : Store) (n : Nat) (t : String) :
    (add_transcript_to_comic s n t).map Prod.fst = s.map Prod.fst := by
  induction s with
  | nil => rfl
  | cons p rest ih =>
    by_cases h : p.1 == n <;> simp [add_transcript_to_comic, h, ih]

theorem add_transcript_frame (s : Store) (n : Nat) (t : String) :
    (add_transcript_to_comic s n t).map (fun p => comicFrame p.2) =
      s.map (fun p => comicFrame p.2) := by
  induction s with
  | nil => rfl
  | cons p rest ih =>
    by_cases h : p.1 == n
    · simp [add_transcript_to_comic, h, comicFrame]
    · simpa [add_transcript_to_comic, h, comicFrame] using ih

theorem add_transcripts_go_keys (tr : Nat → String) (targets : List Nat) :
    ∀ s : Store, (add_transcripts_go tr s targets).1.map Prod.fst = s.map Prod.fst := by
  induction targets with
  | nil => intro s; rfl
  | cons n rest ih =>
    intro s
    by_cases h : tr n = ""
    · simpa [add_transcripts_go, h] using ih s
    · simpa [add_transcripts_go, h] using
        (ih (add_transcript_to_comic s n (tr n))).trans (add_transcript_keys s n (tr n))

theorem add_transcripts_go_frame (tr : Nat → String) (targets : List Nat) :
    ∀ s : Store, (add_transcripts_go tr s targets).1.map (fun p => comicFrame p.2) =
      s.map (fun p => comicFrame p.2) := by
  induction targets with
  | nil => intro s; rfl
  | cons n rest ih =>
    intro s
    by_cases h : tr n = ""
    · simpa [add_transcripts_go, h] using ih s
    · simpa [add_transcripts_go, h] using
        (ih (add_transcript_to_comic s n (tr n))).trans (add_transcript_frame s n (tr n))

theorem add_transcripts_go_store_filter (tr : Nat → String) (targets : List Nat) :
    ∀ s : Store, (add_transcripts_go tr s targets).1 =
      (add_transcripts_go tr s (targets.filter (fun n => tr n != ""))).1 := by
  induction targets with
  | nil => intro s; rfl
  | cons n rest ih =>
    intro s
    by_cases h : tr n = "" <;>
      simp [add_transcripts_go, h, List.filter_cons, ih]

theorem add_transcripts_go_report (tr : Nat → String) (targets : List Nat) :
    ∀ s : Store, ∀ n ∈ targets, tr n = "" →
      BackfillReport.noTranscript n ∈ (add_transcripts_go tr s targets).2 := by
  induction targets with
  | nil => intro s n h; exact absurd h (List.not_mem_nil n)
  | cons m rest ih =>
    intro s n hmem hempty
    rcases List.mem_cons.mp hmem with h | h
    · subst h
      simp [add_transcripts_go, hempty]
    · by_cases hm : tr m = "" <;>
        simp [add_transcripts_go, hm, ih _ n h hempty]

theorem join_cons (a : String) (l : List String) :
    String.join (a :: l) = a ++ String.join l := by
  have key : ∀ (l : List String) (x y : String),
      List.foldl (· ++ ·) (x ++ y) l = x ++ List.foldl (· ++ ·) y l := by
    intro l
    induction l with
    | nil => intro x y; rfl
    | cons b t ih =>
      intro x y
      simpa [String.append_assoc] using ih x (y ++ b)
  simpa [String.join] using key l a ""

theorem collectTranscript_eq_filtered (sibs : List SibNode) :
    collectTranscript sibs =
      String.join (((sibs.takeWhile (fun e => !is_headline e)).filter
        (fun e => e.text != "")).map SibNode.html) := by
  induction sibs with
  | nil => rfl
  | cons e rest ih =>
    by_cases h : is_headline e
    · simp [collectTranscript, h, List.takeWhile_cons, String.join]
    · by_cases ht : e.text = ""
      · simp [collectTranscript, h, ht, List.takeWhile_cons, ih]
      · simp [collectTranscript, h, ht, List.takeWhile_cons, ih, join_cons]

/-- C1 counterexample: on a 200 response whose JSON lacks the `year` field,
`fetch_comic` sets `year` to the integer `0` (from the default string
`'0'`), not to null as the claim states. -/
theorem fetch_comic_missing_year_not_null :
    (fetch_comic 200
      { num := 1, title := "t", img := "i", alt := "a",
        year := none, month := some "2020", day := some "abc" }).map Comic.year
      = some (some 0) ∧
    some (some (0 : Int)) ≠ some (none : Option Int) := by
  exact ⟨by decide, by decide⟩

/-- C1 (amended): on a successful `fetch_comic` each date field is
independently normalized with `normalizeDateField`, which maps a parsable
source string to its integer, an unparsable source string to null, and a
missing field to the integer `0` (Python `int(data.get(key, '0'))`); the
normalization is a total function, so it never raises. -/
theorem fetch_comic_date_normalization (status : Nat) (data : RawComic) :
    (status ≠ 200 → fetch_comic status data = none) ∧
    (status = 200 → ∃ c, fetch_comic status data = some c ∧
      c.year = normalizeDateField data.year ∧
      c.month = normalizeDateField data.month ∧
      c.day = normalizeDateField data.day) ∧
    (∀ v k, pyParseInt v = some k → normalizeDateField (some v) = some k) ∧
    (∀ v, pyParseInt v = none → normalizeDateField (some v) = none) ∧
    normalizeDateField none = some 0 := by
  refine ⟨fun h => by simp [fetch_comic, h], fun h => ?_, ?_, ?_, by decide⟩
  · subst h
    exact ⟨{ num := data.num, title := data.title, img := data.img, alt := data.alt,
             year := normalizeDateField data.year, month := normalizeDateField data.month,
             day := normalizeDateField data.day, transcript := none },
           by simp [fetch_comic], rfl, rfl, rfl⟩
  · intro v k h
    simpa [normalizeDateField] using h
  · intro v h
    simpa [normalizeDateField] using h

/-- Witness for `fetch_comic_date_normalization` at status 200 and a
concrete payload. -/
theorem fetch_comic_date_normalization_witness :
    ∃ c, fetch_comic 200
      { num := 2, title := "t", img := "i", alt := "a",
        year := some "2020", month := some "abc", day := none } = some c ∧
      c.year = normalizeDateField (some "2020") ∧
      c.month = normalizeDateField (some "abc") ∧
      c.day = normalizeDateField none :=
  (fetch_comic_date_normalization 200
    { num := 2, title := "t", img := "i", alt := "a",
      year := some "2020", month := some "abc", day := none }).2.1 rfl

/-- C3: every failure path of `get_transcript_for_comic` — transport
error, non-200 status, parse failure, missing anchor, missing enclosing
heading — yields the empty string; the function is total, so it never
raises to its caller. -/
theorem transcript_fetch_failures_yield_empty :
    get_transcript_for_comic .transportError = "" ∧
    (∀ st p, st ≠ 200 → get_transcript_for_comic (.httpResponse st p) = "") ∧
    (∀ st, get_transcript_for_comic (.httpResponse st none) = "") ∧
    (∀ st, get_transcript_for_comic (.httpResponse st (some .noAnchor)) = "") ∧
    (∀ st, get_transcript_for_comic (.httpResponse st (some .anchorNoHeading)) = "") := by
  refine ⟨rfl, fun st p h => by simp [get_transcript_for_comic, h], ?_, ?_, ?_⟩ <;>
    intro st <;> by_cases h : st = 200 <;> simp [get_transcript_for_comic, h]

/-- Witness for `transcript_fetch_failures_yield_empty` at a concrete
non-200 status. -/
theorem transcript_fetch_failures_yield_empty_witness :
    get_transcript_for_comic (.httpResponse 404
      (some (.anchorWithHeading
        [{ classes := [], childClasses := [], text := "x", html := "<p>x</p>" }]))) = "" :=
  transcript_fetch_failures_yield_empty.2.1 404
    (some (.anchorWithHeading
      [{ classes := [], childClasses := [], text := "x", html := "<p>x</p>" }]))
    (by decide)

/-- C2 counterexample: a pre-boundary sibling whose stripped text is empty
but whose serialized markup is not (here a paragraph holding only an
image) is visited but contributes nothing, so the walk does not return the
markup of every pre-boundary sibling as the claim states. -/
theorem transcript_walk_drops_empty_text_sibling :
    get_transcript_for_comic (.httpResponse 200 (some (.anchorWithHeading
      [{ classes := [], childClasses := [], text := "", html := "<p><img/></p>" },
       { classes := [], childClasses := [["mw-headline"]], text := "Trivia",
         html := "<h2>Trivia</h2>" }]))) = "" ∧
    specCollectAllPreBoundary
      [{ classes := [], childClasses := [], text := "", html := "<p><img/></p>" },
       { classes := [], childClasses := [["mw-headline"]], text := "Trivia",
         html := "<h2>Trivia</h2>" }] = "<p><img/></p>" ∧
    ("" : String) ≠ "<p><img/></p>" := by
  exact ⟨by decide, by decide, by decide⟩

/-- C2 (amended): starting from the anchor's enclosing heading, the walk
visits the subsequent siblings in document order up to but excluding the
first boundary node (one that itself or one of whose immediate children
carries the `mw-headline` marker), and returns the trimmed concatenation
of the serialized markup of the visited siblings whose stripped text is
non-empty; for `[A, B, heading, C]` with `A`, `B` non-empty it is the
concatenation of `A` and `B` only. -/
theorem transcript_walk_boundary (sibs : List SibNode) :
    get_transcript_for_comic (.httpResponse 200 (some (.anchorWithHeading sibs))) =
      pyStrip (String.join (((sibs.takeWhile (fun e => !is_headline e)).filter
        (fun e => e.text != "")).map SibNode.html)) := by
  simp [get_transcript_for_comic, collectTranscript_eq_filtered]

/-- C10: a pre-boundary sibling with empty stripped text contributes no
markup — removing it from the sibling sequence leaves the extracted
transcript unchanged, while traversal continues past it. -/
theorem transcript_walk_empty_text_no_contribution (pre post : List SibNode)
    (e : SibNode) (hh : is_headline e = false) (ht : e.text = "") :
    get_transcript_for_comic (.httpResponse 200 (some (.anchorWithHeading (pre ++ e :: post)))) =
      get_transcript_for_comic (.httpResponse 200 (some (.anchorWithHeading (pre ++ post)))) := by
  have key : collectTranscript (pre ++ e :: post) = collectTranscript (pre ++ post) := by
    induction pre with
    | nil => simp [collectTranscript, hh, ht]
    | cons a t ih =>
      by_cases h : is_headline a <;> simp [collectTranscript, h, ih]
  simp [get_transcript_for_comic, key]

/-- Witness for `transcript_walk_empty_text_no_contribution` at a concrete
sibling sequence. -/
theorem transcript_walk_empty_text_no_contribution_witness :
    get_transcript_for_comic (.httpResponse 200 (some (.anchorWithHeading
      ([{ classes := [], childClasses := [], text := "a", html := "<p>a</p>" }] ++
        { classes := [], childClasses := [], text := "", html := "<p><img/></p>" } ::
        [{ classes := [], childClasses := [], text := "b", html := "<p>b</p>" }])))) =
    get_transcript_for_comic (.httpResponse 200 (some (.anchorWithHeading
      ([{ classes := [], childClasses := [], text := "a", html := "<p>a</p>" }] ++
        [{ classes := [], childClasses := [], text := "b", html := "<p>b</p>" }])))) :=
  transcript_walk_empty_text_no_contribution
    [{ classes := [], childClasses := [], text := "a", html := "<p>a</p>" }]
    [{ classes := [], childClasses := [], text := "b", html := "<p>b</p>" }]
    { classes := [], childClasses := [], text := "", html := "<p><img/></p>" }
    (by decide) (by decide)

/-- C6 counterexample: with overwrite authorized and a text index already
present under the expected name, `_ensure_text_index` drops and recreates
it rather than leaving it untouched as the claim states (the code never
compares the existing index's name with the expected one). -/
theorem ensure_text_index_drops_expected_name :
    ensure_text_index true "text" [("text", [("title", "text")])] =
      [IndexAction.dropIdx "text",
       IndexAction.createIdx "text" ["title", "alt", "transcript"] TEXT_INDEX_WEIGHTS] ∧
    specEnsureTextIndex true "text" [("text", [("title", "text")])] = [] ∧
    ([] : List IndexAction) ≠
      [IndexAction.dropIdx "text",
       IndexAction.createIdx "text" ["title", "alt", "transcript"] TEXT_INDEX_WEIGHTS] := by
  exact ⟨by decide, by decide, by decide⟩

/-- C6 (amended): if no text index exists the weighted index is created;
if any text index exists — under the expected name or not — it is left
untouched when overwrite is not authorized, and dropped and recreated as
the weighted index when overwrite is authorized. -/
theorem ensure_text_index_lifecycle (overwrite : Bool) (idxName : String)
    (indexes : List (String × IndexKey)) :
    (find_existing_text_index indexes = none →
      ensure_text_index overwrite idxName indexes =
        [.createIdx idxName ["title", "alt", "transcript"] TEXT_INDEX_WEIGHTS]) ∧
    (∀ ex, find_existing_text_index indexes = some ex → overwrite = false →
      ensure_text_index overwrite idxName indexes = []) ∧
    (∀ ex, find_existing_text_index indexes = some ex → overwrite = true →
      ensure_text_index overwrite idxName indexes =
        [.dropIdx ex, .createIdx idxName ["title", "alt", "transcript"] TEXT_INDEX_WEIGHTS]) := by
  refine ⟨fun h => by simp [ensure_text_index, h], ?_, ?_⟩ <;>
    intro ex h ho <;> simp [ensure_text_index, h, ho]

/-- Witness for `ensure_text_index_lifecycle`: a text index under another
name is left untouched without overwrite authorization. -/
theorem ensure_text_index_lifecycle_witness :
    ensure_text_index false "text" [("old_idx", [("title", "text")])] = [] :=
  (ensure_text_index_lifecycle false "text"
    [("old_idx", [("title", "text")])]).2.1 "old_idx" (by decide) rfl

/-- C5: the backfill pass creates no record and mutates at most the
`transcript` field: the stored keys and every non-`transcript` field are
preserved; the resulting store is the same as if the targets with an empty
fetched transcript had not been processed at all (so those records are
entirely unchanged); and every target whose fetched transcript is empty is
reported as having no transcript found. -/
theorem add_transcripts_never_creates_and_frames (tr : Nat → String) (rep : Bool)
    (comics : Option (List Nat)) (start? end? : Option Nat) (s : Store) :
    (add_transcripts tr rep comics start? end? s).1.map Prod.fst = s.map Prod.fst ∧
    (add_transcripts tr rep comics start? end? s).1.map (fun p => comicFrame p.2) =
      s.map (fun p => comicFrame p.2) ∧
    (add_transcripts tr rep comics start? end? s).1 =
      (add_transcripts_go tr s
        ((backfill_targets s rep comics start? end?).filter (fun n => tr n != ""))).1 ∧
    (∀ n ∈ backfill_targets s rep comics start? end?, tr n = "" →
      BackfillReport.noTranscript n ∈ (add_transcripts tr rep comics start? end? s).2) :=
  ⟨add_transcripts_go_keys tr _ s,
   add_transcripts_go_frame tr _ s,
   add_transcripts_go_store_filter tr _ s,
   fun n hmem hempty => add_transcripts_go_report tr _ s n hmem hempty⟩

/-- Witness for `add_transcripts_never_creates_and_frames` at a concrete
store, target list, and transcript oracle that finds nothing for comic 2. -/
theorem add_transcripts_never_creates_and_frames_witness :
    (add_transcripts (fun n => if n == 1 then "T" else "") true (some [1, 2]) none none
      [(1, { num := 1, title := "a", img := "i", alt := "x", year := some 1,
             month := none, day := none, transcript := none }),
       (2, { num := 2, title := "b", img := "j", alt := "y", year := none,
             month := none, day := none, transcript := some "old" })]).1.map Prod.fst =
      (([(1, { num := 1, title := "a", img := "i", alt := "x", year := some 1,
               month := none, day := none, transcript := none }),
         (2, { num := 2, title := "b", img := "j", alt := "y", year := none,
               month := none, day := none, transcript := some "old" })] : Store).map
        Prod.fst) ∧
    BackfillReport.noTranscript 2 ∈
      (add_transcripts (fun n => if n == 1 then "T" else "") true (some [1, 2]) none none
        [(1, { num := 1, title := "a", img := "i", alt := "x", year := some 1,
               month := none, day := none, transcript := none }),
         (2, { num := 2, title := "b", img := "j", alt := "y", year := none,
               month := none, day := none, transcript := some "old" })]).2 := by
  have h := add_transcripts_never_creates_and_frames
    (fun n => if n == 1 then "T" else "") true (some [1, 2]) none none
    [(1, { num := 1, title := "a", img := "i", alt := "x", year := some 1,
           month := none, day := none, transcript := none }),
     (2, { num := 2, title := "b", img := "j", alt := "y", year := none,
           month := none, day := none, transcript := some "old" })]
  exact ⟨h.1, h.2.2.2 2 (by decide) rfl⟩

theorem lookup_upsert_self (s : Store) (n : Nat) (c : Comic) :
    lookupStore (upsertDoc s n c) n = some c := by
  induction s with
  | nil => simp [upsertDoc, lookupStore]
  | cons p rest ih =>
    by_cases h : p.1 == n <;> simp [upsertDoc, lookupStore, h, ih]

/-- C8: whenever the loop body performs a primary fetch for `n` that
succeeds (skip-existing does not skip it and the response normalizes to a
document), the transcript fetched for `n` is attached to the document
before the upsert, and afterwards the stored record under the document's
key has exactly that transcript, whatever the store held before. -/
theorem download_step_attaches_transcript (env : Nat → FetchOutcome)
    (tr : Nat → String) (rep : Bool) (s : Store) (n st : Nat) (data : RawComic)
    (c : Comic) (henv : env n = .response st data)
    (hfetch : fetch_comic st data = some c)
    (hskip : rep = true ∨ holdsNum s n = false) :
    (download_step env tr rep s n).1 =
      save_comic s { c with transcript := some (tr n) } ∧
    (download_step env tr rep s n).2 = true ∧
    lookupStore (download_step env tr rep s n).1 c.num =
      some { c with transcript := some (tr n) } := by
  have hcond : (!rep && holdsNum s n) = false := by
    rcases hskip with h | h <;> simp [h]
  have hstep : download_step env tr rep s n =
      (save_comic s { c with transcript := some (tr n) }, true) := by
    simp [download_step, hcond, henv, hfetch]
  refine ⟨by simp [hstep], by simp [hstep], ?_⟩
  rw [hstep]
  exact lookup_upsert_self s c.num { c with transcript := some (tr n) }

/-- Witness for `download_step_attaches_transcript` at a concrete store
that already holds a different transcript for the fetched comic. -/
theorem download_step_attaches_transcript_witness :
    (download_step (fun _ => .response 200
        { num := 3, title := "t", img := "i", alt := "a",
          year := some "2020", month := some "1", day := some "2" })
      (fun _ => "fresh") true
      [(3, { num := 3, title := "t", img := "i", alt := "a", year := some 2020,
             month := some 1, day := some 2, transcript := some "stale" })] 3).2 = true ∧
    lookupStore (download_step (fun _ => .response 200
        { num := 3, title := "t", img := "i", alt := "a",
          year := some "2020", month := some "1", day := some "2" })
      (fun _ => "fresh") true
      [(3, { num := 3, title := "t", img := "i", alt := "a", year := some 2020,
             month := some 1, day := some 2, transcript := some "stale" })] 3).1 3 =
      some { num := 3, title := "t", img := "i", alt := "a", year := some 2020,
             month := some 1, day := some 2, transcript := some "fresh" } := by
  have h := download_step_attaches_transcript
    (fun _ => .response 200
      { num := 3, title := "t", img := "i", alt := "a",
        year := some "2020", month := some "1", day := some "2" })
    (fun _ => "fresh") true
    [(3, { num := 3, title := "t", img := "i", alt := "a", year := some 2020,
           month := some 1, day := some 2, transcript := some "stale" })] 3 200
    { num := 3, title := "t", img := "i", alt := "a",
      year := some "2020", month := some "1", day := some "2" }
    { num := 3, title := "t", img := "i", alt := "a", year := some 2020,
      month := some 1, day := some 2, transcript := none }
    rfl (by decide) (Or.inl rfl)
  exact ⟨h.2.1, h.2.2⟩

theorem foldl_max_init_le (s : Store) :
    ∀ a : Nat, a ≤ s.foldl (fun m p => max m p.1) a := by
  induction s with
  | nil => intro a; exact Nat.le_refl a
  | cons p rest ih =>
    intro a
    exact le_trans (Nat.le_max_left a p.1) (ih (max a p.1))

theorem foldl_max_mem_le (s : Store) :
    ∀ a : Nat, ∀ p ∈ s, p.1 ≤ s.foldl (fun m p => max m p.1) a := by
  induction s with
  | nil => intro a p h; exact absurd h (List.not_mem_nil p)
  | cons q rest ih =>
    intro a p hmem
    rcases List.mem_cons.mp hmem with h | h
    · subst h
      exact le_trans (Nat.le_max_right a p.1) (foldl_max_init_le rest (max a p.1))
    · exact ih (max a q.1) p h

theorem foldl_max_attained (s : Store) :
    ∀ a : Nat, s.foldl (fun m p => max m p.1) a = a ∨
      ∃ p, p ∈ s ∧ s.foldl (fun m p => max m p.1) a = p.1 := by
  induction s with
  | nil => intro a; exact Or.inl rfl
  | cons q rest ih =>
    intro a
    rcases ih (max a q.1) with h | ⟨p, hmem, hp⟩
    · rcases Nat.le_total q.1 a with hle | hle
      · left
        simpa [Nat.max_eq_left hle] using h
      · right
        exact ⟨q, List.mem_cons_self q rest, by simpa [Nat.max_eq_right hle] using h⟩
    · right
      exact ⟨p, List.mem_cons_of_mem q hmem, hp⟩

/-- C9: the loop bounds resolve to the explicit values when given, and
otherwise to one past the highest stored number (which is an upper bound
on the stored keys and is itself stored unless the store is empty) and to
the source's latest number respectively; `download_comics` runs the loop
over exactly that inclusive range. -/
theorem download_comics_range_resolution (s : Store) (latest : Nat) :
    (∀ a, resolve_start (some a) s = a) ∧
    resolve_start none s = get_highest_stored_comic_number s + 1 ∧
    (∀ b, resolve_end (some b) latest = b) ∧
    resolve_end none latest = latest ∧
    (∀ p ∈ s, p.1 ≤ get_highest_stored_comic_number s) ∧
    (s = [] ∨ ∃ p, p ∈ s ∧ p.1 = get_highest_stored_comic_number s) ∧
    (∀ env tr rep start? end?,
      download_comics env tr start? end? rep latest s =
        download_go env tr rep s
          (pyRange (resolve_start start? s) (resolve_end end? latest))) := by
  refine ⟨fun a => rfl, rfl, fun b => rfl, rfl, ?_, ?_, fun env tr rep s? e? => rfl⟩
  · intro p hmem
    exact foldl_max_mem_le s 0 p hmem
  · cases s with
    | nil => exact Or.inl rfl
    | cons q rest =>
      right
      rcases foldl_max_attained (q :: rest) 0 with h | ⟨p, hmem, hp⟩
      · refine ⟨q, List.mem_cons_self q rest, ?_⟩
        have hq := foldl_max_mem_le (q :: rest) 0 q (List.mem_cons_self q rest)
        have : q.1 = 0 := Nat.le_antisymm (h ▸ hq) (Nat.zero_le q.1)
        simp [get_highest_stored_comic_number, h, this]
      · exact ⟨p, hmem, hp.symm⟩

/-- Witness for `download_comics_range_resolution`: the highest stored
number bounds a concrete stored key. -/
theorem download_comics_range_resolution_witness :
    (7 : Nat) ≤ get_highest_stored_comic_number
      [(7, { num := 7, title := "a", img := "i", alt := "x", year := none,
             month := none, day := none, transcript := none }),
       (4, { num := 4, title := "b", img := "j", alt := "y", year := none,
             month := none, day := none, transcript := none })] :=
  (download_comics_range_resolution
    [(7, { num := 7, title := "a", img := "i", alt := "x", year := none,
           month := none, day := none, transcript := none }),
     (4, { num := 4, title := "b", img := "j", alt := "y", year := none,
           month := none, day := none, transcript := none })] 100).2.2.2.2.1
    (7, { num := 7, title := "a", img := "i", alt := "x", year := none,
          month := none, day := none, transcript := none }) (by decide)

theorem fetch_comic_num (st : Nat) (d : RawComic) (c : Comic)
    (h : fetch_comic st d = some c) : c.num = d.num := by
  by_cases hst : st = 200
  · subst hst
    simp [fetch_comic] at h
    simp [← h]
  · simp [fetch_comic, hst] at h

theorem holdsNum_upsert (s : Store) (n m : Nat) (c : Comic) :
    holdsNum (upsertDoc s n c) m = (holdsNum s m || n == m) := by
  induction s with
  | nil => simp [upsertDoc, holdsNum]
  | cons p rest ih =>
    simp only [upsertDoc]
    by_cases hp : (p.1 == n) = true
    · rw [if_pos hp]
      have hpn : p.1 = n := by simpa using hp
      subst hpn
      simp only [holdsNum, List.any_cons]
      cases h1 : (p.1 == m) <;> cases h2 : rest.any (fun q => q.1 == m) <;>
        simp [h1, h2]
    · rw [if_neg hp]
      simp only [holdsNum, List.any_cons] at ih ⊢
      rw [ih, Bool.or_assoc]

theorem holdsNum_upsert_mono (s : Store) (n m : Nat) (c : Comic)
    (h : holdsNum s m = true) : holdsNum (upsertDoc s n c) m = true := by
  simp [holdsNum_upsert, h]

theorem holdsNum_upsert_self (s : Store) (n : Nat) (c : Comic) :
    holdsNum (upsertDoc s n c) n = true := by
  simp [holdsNum_upsert]

theorem download_step_holds_mono (env : Nat → FetchOutcome) (tr : Nat → String)
    (rep : Bool) (s : Store) (n m : Nat) (h : holdsNum s m = true) :
    holdsNum (download_step env tr rep s n).1 m = true := by
  unfold download_step
  by_cases hc : (!rep && holdsNum s n) = true
  · simpa [hc] using h
  · simp only [Bool.not_eq_true] at hc
    cases henv : env n with
    | raised => simpa [hc, henv] using h
    | response st d =>
      cases hfc : fetch_comic st d with
      | none => simpa [hc, henv, hfc] using h
      | some c =>
        simpa [hc, henv, hfc, save_comic] using holdsNum_upsert_mono s c.num m _ h

theorem download_go_holds_mono (env : Nat → FetchOutcome) (tr : Nat → String)
    (rep : Bool) (l : List Nat) :
    ∀ (s : Store) (m : Nat), holdsNum s m = true →
      holdsNum (download_go env tr rep s l).1 m = true := by
  induction l with
  | nil => intro s m h; exact h
  | cons n rest ih =>
    intro s m h
    exact ih _ m (download_step_holds_mono env tr rep s n m h)

theorem download_step_stores (env : Nat → FetchOutcome) (tr : Nat → String)
    (henv : ∀ n st d, env n = .response st d → d.num = n) (s : Store) (n : Nat)
    (c : Comic) (hc : envComic env n = some c) :
    holdsNum (download_step env tr false s n).1 n = true := by
  by_cases hold : holdsNum s n = true
  · simp [download_step, hold]
  · simp only [Bool.not_eq_true] at hold
    cases henv' : env n with
    | raised => simp [envComic, henv'] at hc
    | response st d =>
      have hfc : fetch_comic st d = some c := by simpa [envComic, henv'] using hc
      have hnum : c.num = n := (fetch_comic_num st d c hfc).trans (henv n st d henv')
      simpa [download_step, hold, henv', hfc, save_comic, hnum] using
        holdsNum_upsert_self s n { c with transcript := some (tr n) }

theorem download_go_stores (env : Nat → FetchOutcome) (tr : Nat → String)
    (henv : ∀ n st d, env n = .response st d → d.num = n) (l : List Nat) :
    ∀ (s : Store) (n : Nat) (c : Comic), n ∈ l → envComic env n = some c →
      holdsNum (download_go env tr false s l).1 n = true := by
  induction l with
  | nil => intro s n c h; exact absurd h (List.not_mem_nil n)
  | cons m rest ih =>
    intro s n c hmem hc
    rcases List.mem_cons.mp hmem with h | h
    · subst h
      exact download_go_holds_mono env tr false rest _ n
        (download_step_stores env tr henv s n c hc)
    · exact ih _ n c h hc

theorem download_step_env_none (env : Nat → FetchOutcome) (tr : Nat → String)
    (rep : Bool) (s : Store) (n : Nat) (hc : envComic env n = none) :
    (download_step env tr rep s n).1 = s := by
  by_cases hcond : (!rep && holdsNum s n) = true
  · simp [download_step, hcond]
  · cases henv : env n with
    | raised => simp [download_step, hcond, henv]
    | response st d =>
      have hfc : fetch_comic st d = none := by simpa [envComic, henv] using hc
      simp [download_step, hcond, henv, hfc]

theorem download_step_fix (env : Nat → FetchOutcome) (tr : Nat → String)
    (s : Store) (n : Nat)
    (h : ∀ c, envComic env n = some c → holdsNum s n = true) :
    (download_step env tr false s n).1 = s := by
  by_cases hold : holdsNum s n = true
  · simp [download_step, hold]
  · cases hc : envComic env n with
    | none => exact download_step_env_none env tr false s n hc
    | some c => exact absurd (h c hc) hold

theorem download_go_fix (env : Nat → FetchOutcome) (tr : Nat → String) (l : List Nat) :
    ∀ s : Store, (∀ n ∈ l, ∀ c, envComic env n = some c → holdsNum s n = true) →
      (download_go env tr false s l).1 = s ∧
      (∀ n ∈ (download_go env tr false s l).2, holdsNum s n = false) := by
  induction l with
  | nil => intro s h; exact ⟨rfl, fun n hn => absurd hn (List.not_mem_nil n)⟩
  | cons m rest ih =>
    intro s h
    have hstep : (download_step env tr false s m).1 = s :=
      download_step_fix env tr s m (h m (List.mem_cons_self m rest))
    have hrest := ih s (fun n hn c hc => h n (List.mem_cons_of_mem m hn) c hc)
    constructor
    · show (download_go env tr false (download_step env tr false s m).1 rest).1 = s
      rw [hstep]
      exact hrest.1
    · intro n hn
      have hn' : n ∈ (if (download_step env tr false s m).2 then [m] else []) ++
          (download_go env tr false (download_step env tr false s m).1 rest).2 := hn
      rw [hstep] at hn'
      rcases List.mem_append.mp hn' with h1 | h1
      · by_cases hfetched : (download_step env tr false s m).2 = true
        · rw [if_pos hfetched] at h1
          have hnm : n = m := by simpa using h1
          subst hnm
          by_cases hold : holdsNum s n = true
          · simp [download_step, hold] at hfetched
          · simpa using hold
        · rw [if_neg hfetched] at h1
          exact absurd h1 (List.not_mem_nil n)
      · exact hrest.2 n h1

/-- C4: with skip-existing enabled (`replace = false` — the loop skips a
number the Store already holds before any fetch), running the loop a
second time over the same explicit range `[a, b]` leaves the store exactly
as after the first run, and the second run performs no primary fetch for
any number the store already holds. The hypothesis states the primary
source's interface contract: the document returned for `n` carries
`num = n`. -/
theorem download_comics_skip_existing_idempotent (env : Nat → FetchOutcome)
    (tr : Nat → String) (latest : Nat) (s : Store) (a b : Nat)
    (henv : ∀ n st d, env n = .response st d → d.num = n) :
    (download_comics env tr (some a) (some b) false latest
        (download_comics env tr (some a) (some b) false latest s).1).1 =
      (download_comics env tr (some a) (some b) false latest s).1 ∧
    (∀ n ∈ (download_comics env tr (some a) (some b) false latest
        (download_comics env tr (some a) (some b) false latest s).1).2,
      holdsNum (download_comics env tr (some a) (some b) false latest s).1 n = false) := by
  have key : ∀ n ∈ pyRange a b, ∀ c, envComic env n = some c →
      holdsNum (download_comics env tr (some a) (some b) false latest s).1 n = true :=
    fun n hn c hc => download_go_stores env tr henv (pyRange a b) s n c hn hc
  exact download_go_fix env tr (pyRange a b)
    (download_comics env tr (some a) (some b) false latest s).1 key

/-- Witness for `download_comics_skip_existing_idempotent` with a source
that serves comic 1 and fails for every other number. -/
theorem download_comics_skip_existing_idempotent_witness :
    (download_comics
        (fun n => if n == 1 then
          FetchOutcome.response 200
            { num := 1, title := "t", img := "i", alt := "a",
              year := some "2020", month := some "1", day := some "2" }
          else FetchOutcome.raised)
        (fun _ => "tr") (some 1) (some 3) false 3
        (download_comics
          (fun n => if n == 1 then
            FetchOutcome.response 200
              { num := 1, title := "t", img := "i", alt := "a",
                year := some "2020", month := some "1", day := some "2" }
            else FetchOutcome.raised)
          (fun _ => "tr") (some 1) (some 3) false 3 []).1).1 =
      (download_comics
        (fun n => if n == 1 then
          FetchOutcome.response 200
            { num := 1, title := "t", img := "i", alt := "a",
              year := some "2020", month := some "1", day := some "2" }
          else FetchOutcome.raised)
        (fun _ => "tr") (some 1) (some 3) false 3 []).1 ∧
    (∀ n ∈ (download_comics
        (fun n => if n == 1 then
          FetchOutcome.response 200
            { num := 1, title := "t", img := "i", alt := "a",
              year := some "2020", month := some "1", day := some "2" }
          else FetchOutcome.raised)
        (fun _ => "tr") (some 1) (some 3) false 3
        (download_comics
          (fun n => if n == 1 then
            FetchOutcome.response 200
              { num := 1, title := "t", img := "i", alt := "a",
                year := some "2020", month := some "1", day := some "2" }
            else FetchOutcome.raised)
          (fun _ => "tr") (some 1) (some 3) false 3 []).1).2,
      holdsNum (download_comics
        (fun n => if n == 1 then
          FetchOutcome.response 200
            { num := 1, title := "t", img := "i", alt := "a",
              year := some "2020", month := some "1", day := some "2" }
          else FetchOutcome.raised)
        (fun _ => "tr") (some 1) (some 3) false 3 []).1 n = false) := by
  apply download_comics_skip_existing_idempotent
  intro n st d h
  by_cases hn : n = 1
  · subst hn
    simp only [beq_self_eq_true, if_true, FetchOutcome.response.injEq] at h
    rw [← h.2]
  · have hne : (n == 1) = false := by simpa using hn
    simp [hne] at h

theorem mem_insertRanked (str : String) (c x : Comic) (l : List Comic) :
    x ∈ insertRanked str c l ↔ x = c ∨ x ∈ l := by
  induction l with
  | nil => simp [insertRanked]
  | cons d rest ih =>
    by_cases h : textScore str d < textScore str c
    · simp only [insertRanked, if_pos h, List.mem_cons]
    · simp only [insertRanked, if_neg h, List.mem_cons, ih]
      tauto

theorem mem_rankByScore (str : String) (x : Comic) (l : List Comic) :
    x ∈ rankByScore str l ↔ x ∈ l := by
  induction l with
  | nil => simp [rankByScore]
  | cons c rest ih => simp [rankByScore, mem_insertRanked, ih]

theorem pairwise_insertRanked (str : String) (c : Comic) (l : List Comic)
    (h : l.Pairwise (fun a b => textScore str b ≤ textScore str a)) :
    (insertRanked str c l).Pairwise (fun a b => textScore str b ≤ textScore str a) := by
  induction l with
  | nil => simp [insertRanked]
  | cons d rest ih =>
    rcases List.pairwise_cons.mp h with ⟨hd, hrest⟩
    by_cases hlt : textScore str d < textScore str c
    · rw [insertRanked, if_pos hlt]
      refine List.pairwise_cons.mpr ⟨?_, h⟩
      intro b hb
      rcases List.mem_cons.mp hb with rfl | hb
      · exact le_of_lt hlt
      · exact le_trans (hd b hb) (le_of_lt hlt)
    · rw [insertRanked, if_neg hlt]
      refine List.pairwise_cons.mpr ⟨?_, ih hrest⟩
      intro b hb
      rcases (mem_insertRanked str c b rest).mp hb with rfl | hb
      · exact Nat.le_of_not_lt hlt
      · exact hd b hb

theorem pairwise_rankByScore (str : String) (l : List Comic) :
    (rankByScore str l).Pairwise (fun a b => textScore str b ≤ textScore str a) := by
  induction l with
  | nil => simp [rankByScore]
  | cons c rest ih => exact pairwise_insertRanked str c _ ih

/-- C7: with valid parameters (`q` non-empty, `limit` within the enforced
`1..100` bounds), `search_comics` joins the terms with spaces into one
query string, returns only documents with positive relevance score under
the weighted (5:2:1) disjunctive term-match scoring, sorted by descending
score and truncated to `limit`; and a record matching the query term only
in `title` scores strictly higher than an otherwise-equal record matching
it only in `transcript` the same number of times. -/
theorem search_comics_ranked (q : List String) (limit : Nat) (s : Store)
    (hq : q ≠ []) (h1 : 1 ≤ limit) (h2 : limit ≤ 100) :
    (∃ res, search_comics q limit s = some res ∧
      res.length ≤ limit ∧
      res.Pairwise (fun a b => textScore (String.intercalate " " q) b ≤
        textScore (String.intercalate " " q) a) ∧
      ∀ c ∈ res, textScore (String.intercalate " " q) c ≠ 0) ∧
    (∀ term c₁ c₂ k, wordsOf term = [term] → 0 < k →
      (wordsOf c₁.title).count term = k →
      (wordsOf c₁.alt).count term = 0 →
      (wordsOf (c₁.transcript.getD "")).count term = 0 →
      (wordsOf c₂.title).count term = 0 →
      (wordsOf c₂.alt).count term = 0 →
      (wordsOf (c₂.transcript.getD "")).count term = k →
      textScore term c₂ < textScore term c₁) := by
  constructor
  · have hqe : q.isEmpty = false := by
      cases q with
      | nil => exact absurd rfl hq
      | cons a t => rfl
    have hlim : (decide (limit < 1) || decide (100 < limit)) = false := by
      simp only [Bool.or_eq_false_iff, decide_eq_false_iff_not, Nat.not_lt]
      exact ⟨h1, h2⟩
    refine ⟨(rankByScore (String.intercalate " " q)
        ((s.map Prod.snd).filter
          (fun c => textScore (String.intercalate " " q) c != 0))).take limit,
      ?_, ?_, ?_, ?_⟩
    · simp [search_comics, hqe, hlim]
      exact ⟨by omega, h2⟩
    · calc ((rankByScore (String.intercalate " " q)
            ((s.map Prod.snd).filter
              (fun c => textScore (String.intercalate " " q) c != 0))).take limit).length
          = min limit _ := List.length_take limit _
        _ ≤ limit := Nat.min_le_left limit _
    · exact List.Pairwise.sublist (List.take_sublist _ _) (pairwise_rankByScore _ _)
    · intro c hc
      have hmem : c ∈ (s.map Prod.snd).filter
          (fun c => textScore (String.intercalate " " q) c != 0) :=
        (mem_rankByScore _ _ _).mp (List.take_subset _ _ hc)
      exact bne_iff_ne.mp (List.mem_filter.mp hmem).2
  · intro term c₁ c₂ k hterm hk ht1 ha1 htr1 ht2 ha2 htr2
    have w1 : weightOf "title" = 5 := by decide
    have w2 : weightOf "alt" = 2 := by decide
    have w3 : weightOf "transcript" = 1 := by decide
    have hs1 : textScore term c₁ = 5 * k := by
      simp [textScore, hterm, w1, w2, w3, ht1, ha1, htr1]
    have hs2 : textScore term c₂ = k := by
      simp [textScore, hterm, w1, w2, w3, ht2, ha2, htr2]
    rw [hs1, hs2]
    omega

/-- Witness for `search_comics_ranked` on a two-record store: the search
succeeds with bounded, sorted, matching results, and the title-only match
outscores the transcript-only match. -/
theorem search_comics_ranked_witness :
    (∃ res, search_comics ["foo"] 5
        [(1, { num := 1, title := "foo", img := "i", alt := "zz", year := none,
               month := none, day := none, transcript := some "qq" }),
         (2, { num := 2, title := "yy", img := "j", alt := "zz", year := none,
               month := none, day := none, transcript := some "foo" })] = some res ∧
      res.length ≤ 5 ∧
      res.Pairwise (fun a b => textScore (String.intercalate " " ["foo"]) b ≤
        textScore (String.intercalate " " ["foo"]) a) ∧
      ∀ c ∈ res, textScore (String.intercalate " " ["foo"]) c ≠ 0) ∧
    textScore "foo"
        { num := 2, title := "yy", img := "j", alt := "zz", year := none,
          month := none, day := none, transcript := some "foo" } <
      textScore "foo"
        { num := 1, title := "foo", img := "i", alt := "zz", year := none,
          month := none, day := none, transcript := some "qq" } := by
  have h := search_comics_ranked ["foo"] 5
    [(1, { num := 1, title := "foo", img := "i", alt := "zz", year := none,
           month := none, day := none, transcript := some "qq" }),
     (2, { num := 2, title := "yy", img := "j", alt := "zz", year := none,
           month := none, day := none, transcript := some "foo" })]
    (by decide) (by decide) (by decide)
  exact ⟨h.1, h.2 "foo"
    { num := 1, title := "foo", img := "i", alt := "zz", year := none,
      month := none, day := none, transcript := some "qq" }
    { num := 2, title := "yy", img := "j", alt := "zz", year := none,
      month := none, day := none, transcript := some "foo" } 1
    (by decide) (by decide) (by decide) (by decide) (by decide) (by decide)
    (by decide) (by decide)⟩

end XkcdBot
